import Mathlib

/-!
Verification of the blinky pattern/controller core of the `active_note`
repository.  Namespace `Lib` embeds `src/lib.rs` (the unbounded
`BlinkyPattern` variant), namespace `Blinky` embeds `src/blinky.rs` (the
count-bounded `BlinkyController` variant).  Rust `u32` arithmetic is
modelled on `Nat` with explicit saturation (`saturating_add`) or wrapping
(`% 2 ^ 32`) exactly where the source performs it.
-/

set_option maxHeartbeats 1000000

/-- `u32::MAX`, the largest value of Rust's unsigned 32-bit integer type. -/
def U32_MAX : Nat := 2 ^ 32 - 1

/-- Rust `u32::saturating_add` on values carried as naturals. -/
def u32_saturating_add (a b : Nat) : Nat := min (a + b) U32_MAX

namespace Lib

/-- `BlinkyState` of `src/lib.rs`. -/
inductive BlinkyState where
  | On
  | Off
  deriving DecidableEq

/-- `BlinkyState::toggle` of `src/lib.rs`; the in-place mutation is modelled
as the function from the old state to the new one. -/
def BlinkyState.toggle : BlinkyState → BlinkyState
  | BlinkyState.On => BlinkyState.Off
  | BlinkyState.Off => BlinkyState.On

/-- `BlinkyState::next` of `src/lib.rs`. -/
def BlinkyState.next : BlinkyState → BlinkyState
  | BlinkyState.On => BlinkyState.Off
  | BlinkyState.Off => BlinkyState.On

/-- `BlinkyState::as_bool` of `src/lib.rs`. -/
def BlinkyState.as_bool : BlinkyState → Bool
  | BlinkyState.On => true
  | BlinkyState.Off => false

/-- `BlinkyConfig` of `src/lib.rs` (durations are `u32` milliseconds). -/
structure BlinkyConfig where
  on_duration_ms : Nat
  off_duration_ms : Nat
  deriving DecidableEq

/-- `BlinkyConfig::new` of `src/lib.rs`. -/
def BlinkyConfig.new (on_ms off_ms : Nat) : BlinkyConfig :=
  ⟨on_ms, off_ms⟩

/-- `BlinkyConfig::duration_for_state` of `src/lib.rs`. -/
def BlinkyConfig.duration_for_state (c : BlinkyConfig) (state : BlinkyState) : Nat :=
  match state with
  | BlinkyState.On => c.on_duration_ms
  | BlinkyState.Off => c.off_duration_ms

/-- `BlinkyConfig::is_valid` of `src/lib.rs`:
`self.on_duration_ms > 0 && self.off_duration_ms > 0`. -/
def BlinkyConfig.is_valid (c : BlinkyConfig) : Bool :=
  decide (0 < c.on_duration_ms) && decide (0 < c.off_duration_ms)

/-- `BlinkyPattern` of `src/lib.rs`. -/
structure BlinkyPattern where
  state : BlinkyState
  config : BlinkyConfig
  cycle_count : Nat
  deriving DecidableEq

/-- `BlinkyPattern::new` of `src/lib.rs`. -/
def BlinkyPattern.new (config : BlinkyConfig) : BlinkyPattern :=
  ⟨BlinkyState.Off, config, 0⟩

/-- `BlinkyPattern::next` of `src/lib.rs`: toggle the state, saturating-add 1
to `cycle_count` when the new state is `On`, return the new state and its
duration.  The mutation is modelled by returning the new pattern alongside
the Rust return value. -/
def BlinkyPattern.next (p : BlinkyPattern) : BlinkyPattern × BlinkyState × Nat :=
  let state := p.state.toggle
  let cycle_count :=
    if state = BlinkyState.On then u32_saturating_add p.cycle_count 1 else p.cycle_count
  let duration := p.config.duration_for_state state
  (⟨state, p.config, cycle_count⟩, state, duration)

/-- `BlinkyPattern::reset` of `src/lib.rs`. -/
def BlinkyPattern.reset (p : BlinkyPattern) : BlinkyPattern :=
  ⟨BlinkyState.Off, p.config, 0⟩

/-- `n` successive `next` calls (the sequence of calls of a driver loop). -/
def BlinkyPattern.iter (p : BlinkyPattern) : Nat → BlinkyPattern
  | 0 => p
  | n + 1 => (BlinkyPattern.iter p n).next.1

end Lib

namespace Blinky

/-- `BlinkyConfig` of `src/blinky.rs` (durations are `u64` milliseconds,
`count` is an optional `u32` blink bound). -/
structure BlinkyConfig where
  on_duration_ms : Nat
  off_duration_ms : Nat
  count : Option Nat
  deriving DecidableEq

/-- `BlinkyConfig::new` of `src/blinky.rs` (`count` starts as `None`). -/
def BlinkyConfig.new (on_ms off_ms : Nat) : BlinkyConfig :=
  ⟨on_ms, off_ms, none⟩

/-- `BlinkyConfig::with_count` of `src/blinky.rs`. -/
def BlinkyConfig.with_count (c : BlinkyConfig) (count : Nat) : BlinkyConfig :=
  ⟨c.on_duration_ms, c.off_duration_ms, some count⟩

/-- `BlinkyConfig::validate` of `src/blinky.rs`. -/
def BlinkyConfig.validate (c : BlinkyConfig) : Except String Unit :=
  if c.on_duration_ms = 0 ∧ c.off_duration_ms = 0 then
    Except.error "Both on and off durations cannot be zero"
  else
    match c.count with
    | some count =>
        if count = 0 then Except.error "Blink count cannot be zero" else Except.ok ()
    | none => Except.ok ()

/-- `BlinkyState` of `src/blinky.rs`. -/
inductive BlinkyState where
  | On
  | Off
  deriving DecidableEq

/-- One observable action on the `Led` capability: `step` calls `set_high`
or `set_low` on the LED it drives. -/
inductive LedOp where
  | set_high
  | set_low
  deriving DecidableEq

/-- `BlinkyController` of `src/blinky.rs`. -/
structure BlinkyController where
  config : BlinkyConfig
  state : BlinkyState
  blink_count : Nat
  deriving DecidableEq

/-- `BlinkyController::new` of `src/blinky.rs`: validates, then builds the
controller in state `Off` with `blink_count = 0`. -/
def BlinkyController.new (config : BlinkyConfig) : Except String BlinkyController :=
  match config.validate with
  | Except.error e => Except.error e
  | Except.ok _ => Except.ok ⟨config, BlinkyState.Off, 0⟩

/-- `BlinkyController::should_continue` of `src/blinky.rs`. -/
def BlinkyController.should_continue (c : BlinkyController) : Bool :=
  match c.config.count with
  | some max => decide (c.blink_count < max)
  | none => true

/-- `BlinkyController::step` of `src/blinky.rs`, with the LED side effect
made explicit as the list of operations performed on the `Led` argument.
`self.blink_count += 1` on a Rust `u32` is addition modulo `2 ^ 32`
(release-build wrapping semantics; a debug build would panic instead). -/
def BlinkyController.step (c : BlinkyController) : BlinkyController × List LedOp × Option Nat :=
  if c.should_continue then
    match c.state with
    | BlinkyState.Off =>
        (⟨c.config, BlinkyState.On, c.blink_count⟩, [LedOp.set_high],
          some c.config.on_duration_ms)
    | BlinkyState.On =>
        let c2 : BlinkyController :=
          ⟨c.config, BlinkyState.Off, (c.blink_count + 1) % 2 ^ 32⟩
        if c2.should_continue then (c2, [LedOp.set_low], some c.config.off_duration_ms)
        else (c2, [LedOp.set_low], none)
  else (c, [], none)

/-- `n` successive `step` calls (only the controller component). -/
def BlinkyController.iter (c : BlinkyController) : Nat → BlinkyController
  | 0 => c
  | n + 1 => (BlinkyController.iter c n).step.1

/-- Fuel-bounded model of the driver loop of `BlinkyController::run_async`:
`some k` when the loop finishes after exactly `k` calls to `step` (the final
call returning `none`), `none` when `fuel` runs out first. -/
def BlinkyController.run_steps : BlinkyController → Nat → Option Nat
  | _, 0 => none
  | c, fuel + 1 =>
    match c.step with
    | (c2, _, some _) => Option.map (fun k => k + 1) (BlinkyController.run_steps c2 fuel)
    | (_, _, none) => some 1

/-- The optional blink bound fits in Rust's `u32`. -/
def BlinkyConfig.count_in_range (c : BlinkyConfig) : Prop :=
  ∀ m, c.count = some m → m < 2 ^ 32

/-- Controller states the Rust program can reach: built by
`BlinkyController::new` from a `u32`-representable config, then advanced by
any number of `step` calls. -/
inductive Reachable : BlinkyController → Prop where
  | base : ∀ (cfg : BlinkyConfig) (c : BlinkyController),
      cfg.count_in_range → BlinkyController.new cfg = Except.ok c → Reachable c
  | advance : ∀ (c : BlinkyController), Reachable c → Reachable c.step.1

lemma should_continue_none {c : BlinkyController} (h : c.config.count = none) :
    c.should_continue = true := by
  simp [BlinkyController.should_continue, h]

lemma should_continue_some {c : BlinkyController} {m : Nat} (h : c.config.count = some m) :
    c.should_continue = true ↔ c.blink_count < m := by
  simp [BlinkyController.should_continue, h]

lemma step_halt {c : BlinkyController} (h : c.should_continue = false) :
    c.step = (c, [], none) := by
  simp [BlinkyController.step, h]

lemma step_off {c : BlinkyController} (hs : c.should_continue = true)
    (h : c.state = BlinkyState.Off) :
    c.step = (⟨c.config, BlinkyState.On, c.blink_count⟩, [LedOp.set_high],
      some c.config.on_duration_ms) := by
  simp [BlinkyController.step, hs, h]

lemma step_on {c : BlinkyController} (hs : c.should_continue = true)
    (h : c.state = BlinkyState.On) :
    c.step = (⟨c.config, BlinkyState.Off, (c.blink_count + 1) % 2 ^ 32⟩, [LedOp.set_low],
      if (⟨c.config, BlinkyState.Off, (c.blink_count + 1) % 2 ^ 32⟩ :
            BlinkyController).should_continue
        then some c.config.off_duration_ms else none) := by
  simp [BlinkyController.step, hs, h]
  split <;> rfl

lemma step_none_halt {c : BlinkyController} (h : c.step.2.2 = none) :
    c.step.1.should_continue = false := by
  by_cases hsc : c.should_continue = true
  · cases hst : c.state
    · rw [step_on hsc hst] at h ⊢
      cases hb : (⟨c.config, BlinkyState.Off, (c.blink_count + 1) % 2 ^ 32⟩ :
          BlinkyController).should_continue
      · rfl
      · rw [hb] at h
        simp at h
    · rw [step_off hsc hst] at h
      simp at h
  · have hf : c.should_continue = false := by simpa using hsc
    rw [step_halt hf]
    exact hf

end Blinky

lemma pattern_next_count (p : Lib.BlinkyPattern) :
    p.next.1.cycle_count =
      if p.state = Lib.BlinkyState.Off then u32_saturating_add p.cycle_count 1
      else p.cycle_count := by
  cases hs : p.state <;> simp [Lib.BlinkyPattern.next, Lib.BlinkyState.toggle, hs]

lemma pattern_count_mono_step (p : Lib.BlinkyPattern) (h : p.cycle_count ≤ U32_MAX) :
    p.cycle_count ≤ p.next.1.cycle_count ∧ p.next.1.cycle_count ≤ U32_MAX := by
  rw [pattern_next_count]
  by_cases hs : p.state = Lib.BlinkyState.Off <;> simp [hs, u32_saturating_add] <;> omega

lemma pattern_iter_count_le (p : Lib.BlinkyPattern) (h : p.cycle_count ≤ U32_MAX) :
    ∀ n, (p.iter n).cycle_count ≤ U32_MAX := by
  intro n
  induction n with
  | zero => exact h
  | succ k ih => exact (pattern_count_mono_step (p.iter k) ih).2

lemma pattern_iter_mono (p : Lib.BlinkyPattern) (h : p.cycle_count ≤ U32_MAX) :
    ∀ m n : Nat, m ≤ n → (p.iter m).cycle_count ≤ (p.iter n).cycle_count := by
  intro m n hmn
  induction hmn with
  | refl => exact le_rfl
  | step hk ih =>
      exact le_trans ih
        (pattern_count_mono_step (p.iter _) (pattern_iter_count_le p h _)).1

lemma should_continue_false_of_some {c : Blinky.BlinkyController} {m : Nat}
    (h : c.config.count = some m) (hb : ¬ c.blink_count < m) :
    c.should_continue = false := by
  cases hs : c.should_continue
  · rfl
  · exact absurd ((Blinky.should_continue_some h).mp hs) hb

lemma new_ok_inv {cfg : Blinky.BlinkyConfig} {c : Blinky.BlinkyController}
    (h : Blinky.BlinkyController.new cfg = Except.ok c) :
    c = ⟨cfg, Blinky.BlinkyState.Off, 0⟩ := by
  unfold Blinky.BlinkyController.new at h
  rcases hv : cfg.validate with e | u
  · rw [hv] at h
    simp at h
  · rw [hv] at h
    simp at h
    exact h.symm

lemma step1_off_none (cfg : Blinky.BlinkyConfig) (hc : cfg.count = none) (b : Nat) :
    (⟨cfg, Blinky.BlinkyState.Off, b⟩ : Blinky.BlinkyController).step.1 =
      ⟨cfg, Blinky.BlinkyState.On, b⟩ := by
  rw [Blinky.step_off (Blinky.should_continue_none hc) rfl]

lemma step1_on_none (cfg : Blinky.BlinkyConfig) (hc : cfg.count = none) (b : Nat) :
    (⟨cfg, Blinky.BlinkyState.On, b⟩ : Blinky.BlinkyController).step.1 =
      ⟨cfg, Blinky.BlinkyState.Off, (b + 1) % 2 ^ 32⟩ := by
  rw [Blinky.step_on (Blinky.should_continue_none hc) rfl]

lemma step1_off_some (cfg : Blinky.BlinkyConfig) (m : Nat) (hc : cfg.count = some m)
    (b : Nat) (hb : b < m) :
    (⟨cfg, Blinky.BlinkyState.Off, b⟩ : Blinky.BlinkyController).step.1 =
      ⟨cfg, Blinky.BlinkyState.On, b⟩ := by
  rw [Blinky.step_off ((Blinky.should_continue_some hc).mpr hb) rfl]

lemma step1_on_some (cfg : Blinky.BlinkyConfig) (m : Nat) (hc : cfg.count = some m)
    (b : Nat) (hb : b < m) :
    (⟨cfg, Blinky.BlinkyState.On, b⟩ : Blinky.BlinkyController).step.1 =
      ⟨cfg, Blinky.BlinkyState.Off, (b + 1) % 2 ^ 32⟩ := by
  rw [Blinky.step_on ((Blinky.should_continue_some hc).mpr hb) rfl]

lemma step1_stuck (cfg : Blinky.BlinkyConfig) (m : Nat) (hc : cfg.count = some m)
    (s : Blinky.BlinkyState) (b : Nat) (hb : ¬ b < m) :
    (⟨cfg, s, b⟩ : Blinky.BlinkyController).step.1 = ⟨cfg, s, b⟩ := by
  rw [Blinky.step_halt (should_continue_false_of_some hc hb)]

lemma res_off_some (cfg : Blinky.BlinkyConfig) (m : Nat) (hc : cfg.count = some m)
    (b : Nat) (hb : b < m) :
    (⟨cfg, Blinky.BlinkyState.Off, b⟩ : Blinky.BlinkyController).step.2.2 =
      some cfg.on_duration_ms := by
  rw [Blinky.step_off ((Blinky.should_continue_some hc).mpr hb) rfl]

lemma res_on_some (cfg : Blinky.BlinkyConfig) (m : Nat) (hc : cfg.count = some m)
    (b : Nat) (hb : b < m) (hb32 : b + 1 < 2 ^ 32) :
    (⟨cfg, Blinky.BlinkyState.On, b⟩ : Blinky.BlinkyController).step.2.2 =
      if b + 1 < m then some cfg.off_duration_ms else none := by
  rw [Blinky.step_on ((Blinky.should_continue_some hc).mpr hb) rfl]
  have hm : (b + 1) % 2 ^ 32 = b + 1 := Nat.mod_eq_of_lt hb32
  show (if (⟨cfg, Blinky.BlinkyState.Off, (b + 1) % 2 ^ 32⟩ :
      Blinky.BlinkyController).should_continue then some cfg.off_duration_ms else none) = _
  simp only [Blinky.BlinkyController.should_continue, hc, hm]
  by_cases h2 : b + 1 < m <;> simp [h2]

lemma res_stuck (cfg : Blinky.BlinkyConfig) (m : Nat) (hc : cfg.count = some m)
    (s : Blinky.BlinkyState) (b : Nat) (hb : ¬ b < m) :
    (⟨cfg, s, b⟩ : Blinky.BlinkyController).step.2.2 = none := by
  rw [Blinky.step_halt (should_continue_false_of_some hc hb)]

lemma reachable_advance_iter {c : Blinky.BlinkyController} (h : Blinky.Reachable c) :
    ∀ n : Nat, Blinky.Reachable (c.iter n) := by
  intro n
  induction n with
  | zero => exact h
  | succ k ih => exact Blinky.Reachable.advance _ ih

lemma ctrl_iter_front (c : Blinky.BlinkyController) :
    ∀ n : Nat, c.iter (n + 1) = (c.step.1).iter n := by
  intro n
  induction n with
  | zero => rfl
  | succ k ih =>
      show (c.iter (k + 1)).step.1 = ((c.step.1).iter k).step.1
      rw [ih]

lemma unbounded_iter_closed (on_ms off_ms : Nat) :
    ∀ k : Nat,
      (Blinky.BlinkyController.iter
          ⟨⟨on_ms, off_ms, none⟩, Blinky.BlinkyState.Off, 0⟩ (2 * k) =
        ⟨⟨on_ms, off_ms, none⟩, Blinky.BlinkyState.Off, k % 2 ^ 32⟩) ∧
      (Blinky.BlinkyController.iter
          ⟨⟨on_ms, off_ms, none⟩, Blinky.BlinkyState.Off, 0⟩ (2 * k + 1) =
        ⟨⟨on_ms, off_ms, none⟩, Blinky.BlinkyState.On, k % 2 ^ 32⟩) := by
  intro k
  induction k with
  | zero =>
      norm_num
      constructor
      · rfl
      · show (Blinky.BlinkyController.iter _ 0).step.1 = _
        exact step1_off_none ⟨on_ms, off_ms, none⟩ rfl 0
  | succ j ih =>
      obtain ⟨ihe, iho⟩ := ih
      have he1 : 2 * (j + 1) = (2 * j + 1) + 1 := by ring
      have heven : Blinky.BlinkyController.iter
          ⟨⟨on_ms, off_ms, none⟩, Blinky.BlinkyState.Off, 0⟩ (2 * (j + 1)) =
          ⟨⟨on_ms, off_ms, none⟩, Blinky.BlinkyState.Off, (j + 1) % 2 ^ 32⟩ := by
        rw [he1]
        show (Blinky.BlinkyController.iter _ (2 * j + 1)).step.1 = _
        rw [iho, step1_on_none ⟨on_ms, off_ms, none⟩ rfl (j % 2 ^ 32), Nat.mod_add_mod]
      refine ⟨heven, ?_⟩
      show (Blinky.BlinkyController.iter _ (2 * (j + 1))).step.1 = _
      rw [heven, step1_off_none ⟨on_ms, off_ms, none⟩ rfl ((j + 1) % 2 ^ 32)]

lemma bounded_iter_even (on_ms off_ms n : Nat) (hn32 : n < 2 ^ 32) :
    ∀ k : Nat, k ≤ n →
      Blinky.BlinkyController.iter
          ⟨⟨on_ms, off_ms, some n⟩, Blinky.BlinkyState.Off, 0⟩ (2 * k) =
        ⟨⟨on_ms, off_ms, some n⟩, Blinky.BlinkyState.Off, k⟩ := by
  intro k
  induction k with
  | zero => intro _; rfl
  | succ j ih =>
      intro hk
      have hjn : j < n := by omega
      have he := ih (by omega)
      have hodd : Blinky.BlinkyController.iter
          ⟨⟨on_ms, off_ms, some n⟩, Blinky.BlinkyState.Off, 0⟩ (2 * j + 1) =
          ⟨⟨on_ms, off_ms, some n⟩, Blinky.BlinkyState.On, j⟩ := by
        show (Blinky.BlinkyController.iter _ (2 * j)).step.1 = _
        rw [he, step1_off_some ⟨on_ms, off_ms, some n⟩ n rfl j hjn]
      have he1 : 2 * (j + 1) = (2 * j + 1) + 1 := by ring
      have hmod : (j + 1) % 2 ^ 32 = j + 1 := Nat.mod_eq_of_lt (by omega)
      rw [he1]
      show (Blinky.BlinkyController.iter _ (2 * j + 1)).step.1 = _
      rw [hodd, step1_on_some ⟨on_ms, off_ms, some n⟩ n rfl j hjn, hmod]

lemma bounded_iter_odd (on_ms off_ms n : Nat) (hn32 : n < 2 ^ 32) :
    ∀ k : Nat, k < n →
      Blinky.BlinkyController.iter
          ⟨⟨on_ms, off_ms, some n⟩, Blinky.BlinkyState.Off, 0⟩ (2 * k + 1) =
        ⟨⟨on_ms, off_ms, some n⟩, Blinky.BlinkyState.On, k⟩ := by
  intro k hk
  have he := bounded_iter_even on_ms off_ms n hn32 k (le_of_lt hk)
  show (Blinky.BlinkyController.iter _ (2 * k)).step.1 = _
  rw [he, step1_off_some ⟨on_ms, off_ms, some n⟩ n rfl k hk]

lemma bounded_iter_stuck (on_ms off_ms n : Nat) (hn32 : n < 2 ^ 32) :
    ∀ j : Nat,
      Blinky.BlinkyController.iter
          ⟨⟨on_ms, off_ms, some n⟩, Blinky.BlinkyState.Off, 0⟩ (2 * n + j) =
        ⟨⟨on_ms, off_ms, some n⟩, Blinky.BlinkyState.Off, n⟩ := by
  intro j
  induction j with
  | zero => exact bounded_iter_even on_ms off_ms n hn32 n le_rfl
  | succ i ih =>
      have h1 : 2 * n + (i + 1) = (2 * n + i) + 1 := by ring
      rw [h1]
      show (Blinky.BlinkyController.iter _ (2 * n + i)).step.1 = _
      rw [ih, step1_stuck ⟨on_ms, off_ms, some n⟩ n rfl _ n (by omega)]

lemma run_steps_first_none :
    ∀ (m : Nat) (c : Blinky.BlinkyController),
      (∀ i : Nat, i < m → (c.iter i).step.2.2 ≠ none) →
      (c.iter m).step.2.2 = none →
      ∀ fuel : Nat, m < fuel → c.run_steps fuel = some (m + 1) := by
  intro m
  induction m with
  | zero =>
      intro c _ h0 fuel hf
      obtain ⟨f, rfl⟩ : ∃ f, fuel = f + 1 := ⟨fuel - 1, by omega⟩
      have h00 : c.step.2.2 = none := h0
      rcases hc : c.step with ⟨c1, ops, r⟩
      rw [hc] at h00
      cases h00
      simp [Blinky.BlinkyController.run_steps, hc]
  | succ m ih =>
      intro c hsome h0 fuel hf
      obtain ⟨f, rfl⟩ : ∃ f, fuel = f + 1 := ⟨fuel - 1, by omega⟩
      have h00 : c.step.2.2 ≠ none := hsome 0 (by omega)
      have hsome1 : ∀ i : Nat, i < m → ((c.step.1).iter i).step.2.2 ≠ none := by
        intro i hi
        have h := hsome (i + 1) (by omega)
        rwa [ctrl_iter_front] at h
      have h01 : ((c.step.1).iter m).step.2.2 = none := by
        rwa [ctrl_iter_front] at h0
      have hrec : (c.step.1).run_steps f = some (m + 1) := ih _ hsome1 h01 f (by omega)
      rcases hc : c.step with ⟨c1, ops, r⟩
      rcases r with _ | d
      · rw [hc] at h00
        exact absurd rfl h00
      · have hc1 : c.step.1 = c1 := by rw [hc]
        rw [hc1] at hrec
        simp [Blinky.BlinkyController.run_steps, hc, hrec]

lemma reachable_inv {c : Blinky.BlinkyController} (h : Blinky.Reachable c) :
    ∀ m : Nat, c.config.count = some m →
      m < 2 ^ 32 ∧ c.blink_count ≤ m ∧
        (c.state = Blinky.BlinkyState.On → c.blink_count < m) := by
  induction h with
  | base cfg c hrep hnew =>
      obtain rfl := new_ok_inv hnew
      intro m hm
      exact ⟨hrep m hm, Nat.zero_le m, fun hs => absurd hs (by simp)⟩
  | advance c hc ih =>
      intro m hm
      by_cases hsc : c.should_continue = true
      · cases hst : c.state
        · have hstep : c.step.1 =
              ⟨c.config, Blinky.BlinkyState.Off, (c.blink_count + 1) % 2 ^ 32⟩ := by
            rw [Blinky.step_on hsc hst]
          rw [hstep] at hm ⊢
          have hmm : c.config.count = some m := hm
          obtain ⟨h32, hle, _⟩ := ih m hmm
          have hcnt : c.blink_count < m := (Blinky.should_continue_some hmm).mp hsc
          have hmod : (c.blink_count + 1) % 2 ^ 32 = c.blink_count + 1 :=
            Nat.mod_eq_of_lt (by omega)
          refine ⟨h32, ?_, fun hs => absurd hs (by simp)⟩
          show (c.blink_count + 1) % 2 ^ 32 ≤ m
          omega
        · have hstep : c.step.1 = ⟨c.config, Blinky.BlinkyState.On, c.blink_count⟩ := by
            rw [Blinky.step_off hsc hst]
          rw [hstep] at hm ⊢
          have hmm : c.config.count = some m := hm
          obtain ⟨h32, hle, _⟩ := ih m hmm
          have hcnt : c.blink_count < m := (Blinky.should_continue_some hmm).mp hsc
          exact ⟨h32, le_of_lt hcnt, fun _ => hcnt⟩
      · have hf : c.should_continue = false := by simpa using hsc
        have hstep : c.step.1 = c := by rw [Blinky.step_halt hf]
        rw [hstep] at hm ⊢
        exact ih m hm

/-- C9: for every `BlinkyState` `s`, `s.next()` equals applying `toggle` to a
copy of `s`; applying `toggle` (equivalently `next`) twice returns `s`; one
application yields a state different from `s`. -/
theorem C9_state_toggle_involution :
    ∀ s : Lib.BlinkyState,
      s.next = s.toggle ∧ s.toggle.toggle = s ∧ s.next.next = s ∧ s.next ≠ s := by
  intro s
  cases s <;> refine ⟨rfl, rfl, rfl, ?_⟩ <;> decide

/-- C10: a fresh `BlinkyPattern` starts at `Off` with `cycle_count = 0`, and
`reset` restores `state = Off` and `cycle_count = 0` from every pattern state
(in particular from any state reached by a sequence of `next` calls),
keeping the configuration and raising no error. -/
theorem C10_new_and_reset :
    (∀ cfg : Lib.BlinkyConfig,
        Lib.BlinkyPattern.new cfg = ⟨Lib.BlinkyState.Off, cfg, 0⟩) ∧
    (∀ p : Lib.BlinkyPattern,
        p.reset.state = Lib.BlinkyState.Off ∧ p.reset.cycle_count = 0 ∧
          p.reset.config = p.config) ∧
    (∀ cfg : Lib.BlinkyConfig, ∀ n : Nat,
        ((Lib.BlinkyPattern.new cfg).iter n).reset = Lib.BlinkyPattern.new cfg) := by
  refine ⟨fun cfg => rfl, fun p => ⟨rfl, rfl, rfl⟩, fun cfg n => ?_⟩
  have hconf : ∀ m : Nat, ((Lib.BlinkyPattern.new cfg).iter m).config = cfg := by
    intro m
    induction m with
    | zero => rfl
    | succ k ih => simpa [Lib.BlinkyPattern.iter, Lib.BlinkyPattern.next] using ih
  have hreset : ((Lib.BlinkyPattern.new cfg).iter n).reset
      = ⟨Lib.BlinkyState.Off, ((Lib.BlinkyPattern.new cfg).iter n).config, 0⟩ := rfl
  rw [hreset, hconf n]
  rfl

/-- C4: `BlinkyPattern.next` toggles the stored state, saturating-increments
`cycle_count` exactly when the new state is `On`, and returns the new state
paired with `duration_for_state` of the new state, never failing; the
`(250, 750)` scenario yields `(On, 250, count 1)`, `(Off, 750, count 1)`,
`(On, 250, count 2)`. -/
theorem C4_pattern_next_correct :
    (∀ p : Lib.BlinkyPattern,
        p.next =
          (⟨p.state.toggle, p.config,
              if p.state.toggle = Lib.BlinkyState.On then u32_saturating_add p.cycle_count 1
              else p.cycle_count⟩,
            p.state.toggle, p.config.duration_for_state p.state.toggle)) ∧
    ((Lib.BlinkyPattern.new (Lib.BlinkyConfig.new 250 750)).next =
        (⟨Lib.BlinkyState.On, Lib.BlinkyConfig.new 250 750, 1⟩, Lib.BlinkyState.On, 250) ∧
      (Lib.BlinkyPattern.new (Lib.BlinkyConfig.new 250 750)).next.1.next =
        (⟨Lib.BlinkyState.Off, Lib.BlinkyConfig.new 250 750, 1⟩, Lib.BlinkyState.Off, 750) ∧
      (Lib.BlinkyPattern.new (Lib.BlinkyConfig.new 250 750)).next.1.next.1.next =
        (⟨Lib.BlinkyState.On, Lib.BlinkyConfig.new 250 750, 2⟩, Lib.BlinkyState.On, 250)) := by
  constructor
  · intro p
    rfl
  · refine ⟨?_, ?_, ?_⟩
    · decide
    · decide
    · decide

/-- C1, counterexample: the two validity queries do not have identical truth
conditions — with exactly one zero duration, `lib.rs` `is_valid()` reports
invalid while `blinky.rs` `validate()` with no count returns `Ok`. -/
theorem C1_validity_equivalence_cex :
    Lib.BlinkyConfig.is_valid (Lib.BlinkyConfig.new 0 100) = false ∧
    Blinky.BlinkyConfig.validate (Blinky.BlinkyConfig.new 0 100) = Except.ok () ∧
    Lib.BlinkyConfig.is_valid (Lib.BlinkyConfig.new 100 0) = false ∧
    Blinky.BlinkyConfig.validate (Blinky.BlinkyConfig.new 100 0) = Except.ok () :=
  ⟨rfl, rfl, rfl, rfl⟩

/-- C1, amended: `is_valid()` holds iff both durations are positive, while
`validate()` with no count set succeeds iff at least one duration is
positive; hence `is_valid()` implies `validate()` succeeds, but not
conversely — the two queries disagree exactly when one duration is zero and
the other is not. -/
theorem C1_validity_refinement_amended :
    ∀ on_ms off_ms : Nat,
      (Lib.BlinkyConfig.is_valid (Lib.BlinkyConfig.new on_ms off_ms) = true ↔
        0 < on_ms ∧ 0 < off_ms) ∧
      (Blinky.BlinkyConfig.validate (Blinky.BlinkyConfig.new on_ms off_ms) = Except.ok () ↔
        0 < on_ms ∨ 0 < off_ms) ∧
      (Lib.BlinkyConfig.is_valid (Lib.BlinkyConfig.new on_ms off_ms) = true →
        Blinky.BlinkyConfig.validate (Blinky.BlinkyConfig.new on_ms off_ms) = Except.ok ()) := by
  intro on_ms off_ms
  have hA : Lib.BlinkyConfig.is_valid (Lib.BlinkyConfig.new on_ms off_ms) = true ↔
      0 < on_ms ∧ 0 < off_ms := by
    simp [Lib.BlinkyConfig.is_valid, Lib.BlinkyConfig.new]
  have hB : Blinky.BlinkyConfig.validate (Blinky.BlinkyConfig.new on_ms off_ms) =
      Except.ok () ↔ 0 < on_ms ∨ 0 < off_ms := by
    by_cases h : on_ms = 0 ∧ off_ms = 0
    · simp [Blinky.BlinkyConfig.validate, Blinky.BlinkyConfig.new, h]
    · simp [Blinky.BlinkyConfig.validate, Blinky.BlinkyConfig.new, h]
      omega
  exact ⟨hA, hB, fun h => hB.mpr (Or.inl (hA.mp h).1)⟩

/-- C6: `validate` (and hence `new`) errors exactly when both durations are
zero or a configured count equals zero; for every other config construction
succeeds, preserving the supplied config verbatim with state `Off` and
`blink_count = 0`; and `step` is total — it yields a controller, a list of
LED operations and an optional duration, never an error. -/
theorem C6_construction_error_taxonomy :
    (∀ cfg : Blinky.BlinkyConfig,
      ((∃ e, cfg.validate = Except.error e) ↔
        (cfg.on_duration_ms = 0 ∧ cfg.off_duration_ms = 0) ∨ cfg.count = some 0) ∧
      (cfg.validate = Except.ok () ↔
        Blinky.BlinkyController.new cfg =
          Except.ok ⟨cfg, Blinky.BlinkyState.Off, 0⟩)) ∧
    (∀ c : Blinky.BlinkyController, c.step.2.2 = none ∨ ∃ d, c.step.2.2 = some d) := by
  constructor
  · intro cfg
    constructor
    · by_cases h1 : cfg.on_duration_ms = 0 ∧ cfg.off_duration_ms = 0
      · simp [Blinky.BlinkyConfig.validate, h1]
      · rcases hc : cfg.count with _ | m
        · simp [Blinky.BlinkyConfig.validate, h1, hc]
        · by_cases hm : m = 0 <;>
            simp [Blinky.BlinkyConfig.validate, h1, hc, hm]
    · rcases hv : cfg.validate with e | u
      · simp [Blinky.BlinkyController.new, hv]
      · cases u
        simp [Blinky.BlinkyController.new, hv]
  · intro c
    rcases h : c.step.2.2 with _ | d
    · exact Or.inl rfl
    · exact Or.inr ⟨d, rfl⟩

/-- C2, counterexample: a fresh `BlinkyController` (default 500/500 config,
no count) increments `blink_count` by 0 on its first, Off→On, step and by 1
on its second, On→Off, step — the opposite of the claimed edges. -/
theorem C2_counter_edge_cex :
    Blinky.BlinkyController.new (Blinky.BlinkyConfig.new 500 500) =
      Except.ok ⟨Blinky.BlinkyConfig.new 500 500, Blinky.BlinkyState.Off, 0⟩ ∧
    (⟨Blinky.BlinkyConfig.new 500 500, Blinky.BlinkyState.Off, 0⟩ :
        Blinky.BlinkyController).step.1.state = Blinky.BlinkyState.On ∧
    (⟨Blinky.BlinkyConfig.new 500 500, Blinky.BlinkyState.Off, 0⟩ :
        Blinky.BlinkyController).step.1.blink_count = 0 ∧
    (⟨Blinky.BlinkyConfig.new 500 500, Blinky.BlinkyState.Off, 0⟩ :
        Blinky.BlinkyController).step.1.step.1.state = Blinky.BlinkyState.Off ∧
    (⟨Blinky.BlinkyConfig.new 500 500, Blinky.BlinkyState.Off, 0⟩ :
        Blinky.BlinkyController).step.1.step.1.blink_count = 1 :=
  ⟨rfl, by decide, by decide, by decide, by decide⟩

/-- C2, amended: the pattern's `cycle_count` increases by 1 (saturating at
`u32::MAX`) on each Off→On transition, by 0 on each On→Off transition, and
is monotonically non-decreasing across every sequence of `next` calls; the
controller's `blink_count` is unchanged on steps taken from `Off` (and on
halted steps), increases by 1 (as a wrapping `u32` addition) on each acting
step from `On`, and does not decrease while below `u32::MAX`. -/
theorem C2_counter_edges_amended :
    (∀ p : Lib.BlinkyPattern,
      (p.state = Lib.BlinkyState.Off →
        p.next.1.cycle_count = u32_saturating_add p.cycle_count 1) ∧
      (p.state = Lib.BlinkyState.On → p.next.1.cycle_count = p.cycle_count) ∧
      (p.cycle_count ≤ U32_MAX → ∀ m n : Nat, m ≤ n →
        (p.iter m).cycle_count ≤ (p.iter n).cycle_count)) ∧
    (∀ c : Blinky.BlinkyController,
      (c.state = Blinky.BlinkyState.Off → c.step.1.blink_count = c.blink_count) ∧
      (c.should_continue = false → c.step.1 = c) ∧
      (c.state = Blinky.BlinkyState.On → c.should_continue = true →
        c.step.1.blink_count = (c.blink_count + 1) % 2 ^ 32) ∧
      (c.blink_count < U32_MAX → c.blink_count ≤ c.step.1.blink_count)) := by
  constructor
  · intro p
    refine ⟨fun h => ?_, fun h => ?_, fun h => pattern_iter_mono p h⟩
    · rw [pattern_next_count, if_pos h]
    · rw [pattern_next_count, if_neg (by simp [h])]
  · intro c
    have hcount : c.blink_count < U32_MAX → c.blink_count ≤ c.step.1.blink_count := by
      intro hb
      by_cases hsc : c.should_continue = true
      · cases hst : c.state
        · have h32 : (2 : Nat) ^ 32 = 4294967296 := by norm_num
          have hmax : U32_MAX = 4294967295 := by norm_num [U32_MAX]
          have hmod : (c.blink_count + 1) % 2 ^ 32 = c.blink_count + 1 :=
            Nat.mod_eq_of_lt (by omega)
          rw [Blinky.step_on hsc hst]
          show c.blink_count ≤ (c.blink_count + 1) % 2 ^ 32
          omega
        · rw [Blinky.step_off hsc hst]
      · have hf : c.should_continue = false := by simpa using hsc
        rw [Blinky.step_halt hf]
    refine ⟨fun h => ?_, fun h => by rw [Blinky.step_halt h], fun h1 h2 => ?_, hcount⟩
    · by_cases hsc : c.should_continue = true
      · rw [Blinky.step_off hsc h]
      · have hf : c.should_continue = false := by simpa using hsc
        rw [Blinky.step_halt hf]
    · rw [Blinky.step_on h2 h1]

/-- C8: once `step` has returned `None`, the controller is idempotently
terminal — every later `step` call returns `None`, leaves the controller
(state and `blink_count`) unchanged and performs no LED operation. -/
theorem C8_idempotently_terminal :
    ∀ c : Blinky.BlinkyController, c.step.2.2 = none →
      c.step.1.step = (c.step.1, [], none) ∧
      ∀ k : Nat, 1 ≤ k → c.iter k = c.step.1 := by
  intro c h
  have hhalt : c.step.1.should_continue = false := Blinky.step_none_halt h
  have hwait : c.step.1.step = (c.step.1, [], none) := Blinky.step_halt hhalt
  refine ⟨hwait, ?_⟩
  have hiter : ∀ j : Nat, c.iter (j + 1) = c.step.1 := by
    intro j
    induction j with
    | zero => rfl
    | succ i ih =>
        have : c.iter (i + 1 + 1) = (c.iter (i + 1)).step.1 := rfl
        rw [this, ih, hwait]
  intro k hk
  obtain ⟨j, rfl⟩ : ∃ j, k = j + 1 := ⟨k - 1, by omega⟩
  exact hiter j

/-- C8 witness: a controller whose `step` has just returned `None`
(count bound 1 already reached) stays unchanged on further steps. -/
theorem C8_idempotently_terminal_witness :
    (⟨⟨500, 500, some 1⟩, Blinky.BlinkyState.Off, 1⟩ :
        Blinky.BlinkyController).step.1.step =
      ((⟨⟨500, 500, some 1⟩, Blinky.BlinkyState.Off, 1⟩ :
        Blinky.BlinkyController).step.1, [], none) ∧
    (⟨⟨500, 500, some 1⟩, Blinky.BlinkyState.Off, 1⟩ :
        Blinky.BlinkyController).iter 3 =
      (⟨⟨500, 500, some 1⟩, Blinky.BlinkyState.Off, 1⟩ :
        Blinky.BlinkyController).step.1 :=
  ⟨(C8_idempotently_terminal _ (by decide)).1,
    (C8_idempotently_terminal _ (by decide)).2 3 (by decide)⟩

/-- C3: at `u32::MAX - 1` both counters step to `u32::MAX`, and there the
pattern's `cycle_count` saturates as claimed — but the controller's
`blink_count += 1` wraps to `0` instead of staying at the maximum
(release-build semantics; a debug build would panic on the overflow), and
the failing controller state is reachable from a fresh unbounded
controller. -/
theorem C3_controller_counter_wraps_not_saturates :
    ((⟨Lib.BlinkyState.Off, ⟨500, 500⟩, 4294967294⟩ :
          Lib.BlinkyPattern).next.1.cycle_count = 4294967295 ∧
      (⟨Lib.BlinkyState.Off, ⟨500, 500⟩, 4294967295⟩ :
          Lib.BlinkyPattern).next.1.cycle_count = 4294967295) ∧
    ((⟨⟨500, 500, none⟩, Blinky.BlinkyState.On, 4294967294⟩ :
          Blinky.BlinkyController).step.1.blink_count = 4294967295 ∧
      (⟨⟨500, 500, none⟩, Blinky.BlinkyState.On, 4294967295⟩ :
          Blinky.BlinkyController).step.1.blink_count = 0) ∧
    Blinky.Reachable ⟨⟨500, 500, none⟩, Blinky.BlinkyState.On, 4294967295⟩ := by
  refine ⟨⟨by decide, by decide⟩, ⟨by decide, by decide⟩, ?_⟩
  have hbase : Blinky.Reachable ⟨⟨500, 500, none⟩, Blinky.BlinkyState.Off, 0⟩ :=
    Blinky.Reachable.base ⟨500, 500, none⟩ _ (fun m hm => absurd hm (by simp)) rfl
  have h := reachable_advance_iter hbase (2 * 4294967295 + 1)
  rwa [(unbounded_iter_closed 500 500 4294967295).2,
    Nat.mod_eq_of_lt (by norm_num)] at h

/-- C5, counterexample: the claim's step machine holds `blink_count`
increments by exactly 1 on the On→Off step, but at the reachable controller
state with `blink_count = u32::MAX` (unbounded config, state `On`) the next
step sets `blink_count` to `0`, not to `u32::MAX + 1`. -/
theorem C5_step_machine_cex :
    Blinky.Reachable ⟨⟨500, 500, none⟩, Blinky.BlinkyState.On, 4294967295⟩ ∧
    (⟨⟨500, 500, none⟩, Blinky.BlinkyState.On, 4294967295⟩ :
        Blinky.BlinkyController).step.1.blink_count = 0 ∧
    (0 : Nat) ≠ 4294967295 + 1 := by
  refine ⟨?_, by decide, by decide⟩
  have hbase : Blinky.Reachable ⟨⟨500, 500, none⟩, Blinky.BlinkyState.Off, 0⟩ :=
    Blinky.Reachable.base ⟨500, 500, none⟩ _ (fun m hm => absurd hm (by simp)) rfl
  have h := reachable_advance_iter hbase (2 * 4294967295 + 1)
  rwa [(unbounded_iter_closed 500 500 4294967295).2,
    Nat.mod_eq_of_lt (by norm_num)] at h

/-- C5, amended: `BlinkyController::step` implements exactly the claimed
machine on every reachable state, except that the On→Off increment is the
wrapping `u32` addition `(blink_count + 1) % 2 ^ 32` (equal to
`blink_count + 1` whenever the counter is below `u32::MAX`): a fresh
controller starts at `Off` with count 0; from `Off`, when
`should_continue()` holds, `step` calls `set_high`, moves to `On` and
returns the on-duration (and acts as the identity returning `None` when it
does not hold); from `On` (where `should_continue()` always holds on
reachable states) it calls `set_low`, moves to `Off`, increments the
counter, and returns the off-duration iff `should_continue()` still holds;
`should_continue()` is true iff no count is configured or
`blink_count < count`. -/
theorem C5_step_machine_amended :
    (∀ (cfg : Blinky.BlinkyConfig) (c0 : Blinky.BlinkyController),
      Blinky.BlinkyController.new cfg = Except.ok c0 →
        c0.state = Blinky.BlinkyState.Off ∧ c0.blink_count = 0) ∧
    (∀ c : Blinky.BlinkyController, Blinky.Reachable c →
      (c.should_continue = true ↔
        c.config.count = none ∨ ∃ m, c.config.count = some m ∧ c.blink_count < m) ∧
      (c.state = Blinky.BlinkyState.Off → c.should_continue = true →
        c.step = (⟨c.config, Blinky.BlinkyState.On, c.blink_count⟩,
          [Blinky.LedOp.set_high], some c.config.on_duration_ms)) ∧
      (c.should_continue = false → c.step = (c, [], none)) ∧
      (c.state = Blinky.BlinkyState.On →
        c.step = (⟨c.config, Blinky.BlinkyState.Off, (c.blink_count + 1) % 2 ^ 32⟩,
          [Blinky.LedOp.set_low],
          if (⟨c.config, Blinky.BlinkyState.Off, (c.blink_count + 1) % 2 ^ 32⟩ :
              Blinky.BlinkyController).should_continue
          then some c.config.off_duration_ms else none))) := by
  constructor
  · intro cfg c0 hnew
    obtain rfl := new_ok_inv hnew
    exact ⟨rfl, rfl⟩
  · intro c hr
    refine ⟨?_, fun hst hsc => Blinky.step_off hsc hst, fun hf => Blinky.step_halt hf,
      fun hst => ?_⟩
    · rcases hcc : c.config.count with _ | m
      · simp [Blinky.should_continue_none hcc, hcc]
      · simp [Blinky.should_continue_some hcc, hcc]
    · have hsc : c.should_continue = true := by
        rcases hcc : c.config.count with _ | m
        · exact Blinky.should_continue_none hcc
        · exact (Blinky.should_continue_some hcc).mpr ((reachable_inv hr m hcc).2.2 hst)
      exact Blinky.step_on hsc hst

/-- C5 witness: the machine description applied to a concrete fresh
(reachable) controller: its first step drives the LED high, moves to `On`
and returns the on-duration. -/
theorem C5_step_machine_amended_witness :
    (⟨⟨500, 500, none⟩, Blinky.BlinkyState.Off, 0⟩ : Blinky.BlinkyController).step =
      (⟨⟨500, 500, none⟩, Blinky.BlinkyState.On, 0⟩,
        [Blinky.LedOp.set_high], some 500) :=
  (C5_step_machine_amended.2 ⟨⟨500, 500, none⟩, Blinky.BlinkyState.Off, 0⟩
      (Blinky.Reachable.base ⟨500, 500, none⟩ _
        (fun m hm => absurd hm (by simp)) rfl)).2.1 rfl (by decide)

/-- C7: a controller freshly constructed with a valid bounded config
(`count = Some n`, `n ≥ 1`, `n` a `u32`) returns `Some` from `step` exactly
on the first `2n - 1` calls, `None` on every call from the `2n`-th onwards,
and the `run_async` driver loop therefore terminates after exactly `2n`
`step` calls (for any fuel bound of at least `2n`). -/
theorem C7_bounded_termination :
    ∀ (on_ms off_ms n : Nat) (c0 : Blinky.BlinkyController),
      1 ≤ n → n < 2 ^ 32 →
      Blinky.BlinkyController.new ⟨on_ms, off_ms, some n⟩ = Except.ok c0 →
      (∀ i : Nat, i < 2 * n - 1 → (c0.iter i).step.2.2.isSome = true) ∧
      (∀ i : Nat, 2 * n - 1 ≤ i → (c0.iter i).step.2.2 = none) ∧
      (∀ fuel : Nat, 2 * n ≤ fuel → c0.run_steps fuel = some (2 * n)) := by
  intro on_ms off_ms n c0 hn1 hn32 hnew
  obtain rfl := new_ok_inv hnew
  have hA : ∀ i : Nat, i < 2 * n - 1 →
      ((Blinky.BlinkyController.iter
        ⟨⟨on_ms, off_ms, some n⟩, Blinky.BlinkyState.Off, 0⟩ i)).step.2.2.isSome = true := by
    intro i hi
    rcases Nat.even_or_odd i with ⟨k, hk⟩ | ⟨k, hk⟩
    · have hik : i = 2 * k := by omega
      subst hik
      rw [bounded_iter_even on_ms off_ms n hn32 k (by omega),
        res_off_some ⟨on_ms, off_ms, some n⟩ n rfl k (by omega)]
      rfl
    · have hik : i = 2 * k + 1 := by omega
      subst hik
      rw [bounded_iter_odd on_ms off_ms n hn32 k (by omega),
        res_on_some ⟨on_ms, off_ms, some n⟩ n rfl k (by omega) (by omega),
        if_pos (by omega : k + 1 < n)]
      rfl
  have hB : ∀ i : Nat, 2 * n - 1 ≤ i →
      ((Blinky.BlinkyController.iter
        ⟨⟨on_ms, off_ms, some n⟩, Blinky.BlinkyState.Off, 0⟩ i)).step.2.2 = none := by
    intro i hi
    by_cases hcase : i = 2 * n - 1
    · have hik : i = 2 * (n - 1) + 1 := by omega
      subst hik
      rw [bounded_iter_odd on_ms off_ms n hn32 (n - 1) (by omega),
        res_on_some ⟨on_ms, off_ms, some n⟩ n rfl (n - 1) (by omega) (by omega),
        if_neg (by omega : ¬ (n - 1) + 1 < n)]
    · obtain ⟨j, rfl⟩ : ∃ j, i = 2 * n + j := ⟨i - 2 * n, by omega⟩
      rw [bounded_iter_stuck on_ms off_ms n hn32 j,
        res_stuck ⟨on_ms, off_ms, some n⟩ n rfl _ n (by omega)]
  refine ⟨hA, hB, ?_⟩
  intro fuel hfuel
  have hsome : ∀ i : Nat, i < 2 * n - 1 →
      ((Blinky.BlinkyController.iter
        ⟨⟨on_ms, off_ms, some n⟩, Blinky.BlinkyState.Off, 0⟩ i)).step.2.2 ≠ none := by
    intro i hi heq
    have h := hA i hi
    rw [heq] at h
    simp at h
  have h := run_steps_first_none (2 * n - 1) _ hsome (hB _ le_rfl) fuel (by omega)
  have h1 : 2 * n - 1 + 1 = 2 * n := by omega
  rwa [h1] at h

/-- C7 witness: with bound 2, the fresh controller's third step still yields
a duration, its fourth yields `None`, and the driver loop finishes after
exactly 4 `step` calls. -/
theorem C7_bounded_termination_witness :
    ((⟨⟨100, 100, some 2⟩, Blinky.BlinkyState.Off, 0⟩ :
        Blinky.BlinkyController).iter 2).step.2.2.isSome = true ∧
    ((⟨⟨100, 100, some 2⟩, Blinky.BlinkyState.Off, 0⟩ :
        Blinky.BlinkyController).iter 3).step.2.2 = none ∧
    (⟨⟨100, 100, some 2⟩, Blinky.BlinkyState.Off, 0⟩ :
        Blinky.BlinkyController).run_steps 4 = some 4 :=
  ⟨(C7_bounded_termination 100 100 2 _ (by decide) (by norm_num) rfl).1 2 (by decide),
    (C7_bounded_termination 100 100 2 _ (by decide) (by norm_num) rfl).2.1 3 (by decide),
    (C7_bounded_termination 100 100 2 _ (by decide) (by norm_num) rfl).2.2 4 (by decide)⟩
